import Mathlib

/-!
# Verification of go-tk/versionedkv (in-memory storage)

Shallow embedding of the repository's in-memory versioned key/value store:

* `memorystorage/internal/value.go` — the per-key `Value` state machine
  (`Get`, `AddWatcher`, `RemoveWatcher`, `CheckAndSet`, `Clear`, `set`);
* `memorystorage/memorystorage.go` — the storage coordinator
  (`tryGetValue`, `tryWaitForValue`, `tryCreateValue`, `tryUpdateValue`,
  `tryCreateOrUpdateValue`, `tryDeleteValue`, `Close`, `nextVersion`,
  `version2OpaqueVersion`, `opaqueVersion2Version`).

Modelling decisions:

* The Go `internal.Version` is `uint64`; the counter is only ever incremented
  by one per allocation, so the storage semantics uses an unbounded `Nat`
  (adequate while fewer than 2^64 allocations have happened).  Where the
  wraparound of `atomic.AddUint64` matters, the allocation is modelled
  faithfully by `nextVersion` (an add modulo 2^64) and the `...Wrap` variants
  of the allocating operations.
* Go's `sync.Map` is modelled as an association list `List (String × Value)`
  in which each key occurs at most once; `LoadOrStore`, `Load` and `Delete`
  become `lookupV`, `setEntry` and `delEntry`.
* The `*watcher` pointers are modelled by fresh `Nat` identifiers drawn from a
  `watcherSeq` counter in the storage state.  Firing a watcher is modelled by
  emitting an event `(watcherId, EventArgs)`; a goroutine blocked in
  `WaitForValue` resumes exactly when an event with its watcher id is emitted.
* `Value.set` panics in Go when the version is zero; this is modelled by an
  `Option` result (`none` = panic), surfaced as the `panicked` outcome of the
  storage operations.
* The sequential (single-thread-at-a-time) semantics is modelled: each public
  operation is its `tryX` body; the enclosing `for` loop re-runs the body only
  on `ErrValueRemoved`, which is modelled as the `retryGone` outcome
  (a tombstoned value observed; the public wrappers map it to `diverge`).
* The mutations the Go code performs through a held `*internal.Value` pointer
  (watcher bookkeeping, CAS writes) are modelled by re-storing the updated
  value under its key, which is equivalent in the sequential semantics.
-/

/-- Model of `internal.EventArgs`: payload carried by a fired watcher. -/
structure EventArgs where
  value : String
  version : Nat
deriving Repr, DecidableEq

/-- Model of `internal.Value`: the per-key slot.  `watchers` holds the identifiers of
the attached (unfired) watchers; `isRemoved` is the tombstone flag. -/
structure Value where
  v : String
  version : Nat
  watchers : List Nat
  isRemoved : Bool
deriving Repr, DecidableEq

/-- A list of fired watcher events: (watcher id, payload). -/
abbrev Events := List (Nat × EventArgs)

/-- Model of `Value.set` (value.go): writes the pair; Go panics when `version == 0`,
modelled as `none`. -/
def Value.set (val : Value) (vv : String) (version : Nat) : Option Value :=
  if version = 0 then none
  else some { val with v := vv, version := version }

/-- Model of `internal.NewValue` (value.go): a fresh value built through `set`
(`none` = the zero-version panic). -/
def NewValue (vv : String) (version : Nat) : Option Value :=
  Value.set { v := "", version := 0, watchers := [], isRemoved := false } vv version

/-- Model of `Value.Get` (value.go): the error case is `ErrValueRemoved`. -/
def Value.Get (val : Value) : Except Unit (String × Nat) :=
  if val.isRemoved then .error () else .ok (val.v, val.version)

/-- Model of `Value.AddWatcher` (value.go): attaches a fresh watcher (its identifier is
chosen by the caller from the storage-wide sequence). -/
def Value.AddWatcher (val : Value) (wid : Nat) : Except Unit Value :=
  if val.isRemoved then .error ()
  else .ok { val with watchers := val.watchers ++ [wid] }

/-- Result of `Value.RemoveWatcher`: the updated value and whether the remover
(map deletion + tombstone) ran. -/
structure RemoveWatcherOut where
  value : Value
  removed : Bool
deriving Repr, DecidableEq

/-- Model of `Value.RemoveWatcher` (value.go): detaches `wid` if attached; when the
last watcher leaves an absent (version 0) value, the value is removed
(tombstoned and deleted from the map by the remover). -/
def Value.RemoveWatcher (val : Value) (wid : Nat) : Except Unit RemoveWatcherOut :=
  if val.isRemoved then .error ()
  else if wid ∈ val.watchers then
    let ws := val.watchers.erase wid
    if 1 ≤ ws.length then .ok ⟨{ val with watchers := ws }, false⟩
    else if val.version = 0 then
      .ok ⟨{ val with watchers := [], isRemoved := true }, true⟩
    else .ok ⟨{ val with watchers := [] }, false⟩
  else .ok ⟨val, false⟩

/-- Result of `Value.CheckAndSet`. -/
inductive CASRes where
  /-- The callback declined; no state change. -/
  | notApplied (val : Value)
  /-- The write was applied; all previously attached watchers were detached
  and fired with the new pair. -/
  | applied (val : Value) (evs : Events)
  /-- A write through `Value.set` was requested with a zero version (Go panics). -/
  | panicked
deriving Repr, DecidableEq

/-- Model of `Value.CheckAndSet` (value.go): the callback maps the current version to
`none` (decline) or `some (newValue, newVersion)`.  On success the watchers
are detached and fired with the written pair. -/
def Value.CheckAndSet (val : Value) (callback : Nat → Option (String × Nat)) :
    Except Unit CASRes :=
  if val.isRemoved then .error ()
  else match callback val.version with
  | none => .ok (.notApplied val)
  | some (vv, version) =>
    match val.set vv version with
    | none => .ok .panicked
    | some val1 =>
      .ok (.applied { val1 with watchers := [] }
        (val.watchers.map fun w => (w, ⟨vv, version⟩)))

/-- Result of `Value.Clear`: the updated value, success flag, and whether the
remover (map deletion + tombstone) ran.  Note that `Clear` in value.go does
not detach or fire any watcher. -/
structure ClearOut where
  value : Value
  ok : Bool
  removed : Bool
deriving Repr, DecidableEq

/-- Model of `Value.Clear` (value.go): fails when absent or on a version mismatch;
otherwise zeroes the pair, and removes the value only when no watcher is
attached.  No watcher is fired. -/
def Value.Clear (val : Value) (version : Nat) : Except Unit ClearOut :=
  if val.isRemoved then .error ()
  else if val.version = 0 then .ok ⟨val, false, false⟩
  else if version ≠ 0 ∧ val.version ≠ version then .ok ⟨val, false, false⟩
  else
    let val1 := { val with v := "", version := 0 }
    if val1.watchers = [] then .ok ⟨{ val1 with isRemoved := true }, true, true⟩
    else .ok ⟨val1, true, false⟩

/-- Model of `memoryStorage` (memorystorage.go): the key→value map, the version
counter, the closed flag, and the watcher-identifier sequence. -/
structure Storage where
  values : List (String × Value)
  version : Nat
  isClosed1 : Bool
  watcherSeq : Nat
deriving Repr, DecidableEq

/-- Model of `New()` (memorystorage.go): a fresh storage. -/
def Storage.new : Storage :=
  { values := [], version := 0, isClosed1 := false, watcherSeq := 0 }

/-- Model of `sync.Map.Load`. -/
def lookupV : List (String × Value) → String → Option Value
  | [], _ => none
  | (k1, v) :: rest, k => if k1 = k then some v else lookupV rest k

/-- Store (or replace) the entry for a key (`sync.Map.Store` and the store
half of `LoadOrStore`, and in-place mutation through a held pointer). -/
def setEntry : List (String × Value) → String → Value → List (String × Value)
  | [], k, v => [(k, v)]
  | (k1, v1) :: rest, k, v =>
    if k1 = k then (k, v) :: rest else (k1, v1) :: setEntry rest k v

/-- Model of `sync.Map.Delete`. -/
def delEntry : List (String × Value) → String → List (String × Value)
  | [], _ => []
  | (k1, v1) :: rest, k => if k1 = k then rest else (k1, v1) :: delEntry rest k

/-- Model of `version2OpaqueVersion` (memorystorage.go): internal 0 becomes the public
nil version; the public `versionedkv.Version` is modelled as `Option Nat`. -/
def version2OpaqueVersion (version : Nat) : Option Nat :=
  if version = 0 then none else some version

/-- Model of `opaqueVersion2Version` (memorystorage.go): nil becomes internal 0. -/
def opaqueVersion2Version : Option Nat → Nat
  | none => 0
  | some v => v

/-- The `CheckAndSet` callback installed by `tryCreateValue`: succeed only if
the slot is currently absent, writing the pre-allocated version. -/
def createValueCallback (vl : String) (version : Nat) (currentVersion : Nat) :
    Option (String × Nat) :=
  if currentVersion ≠ 0 then none else some (vl, version)

/-- The `CheckAndSet` callback installed by `tryUpdateValue`.  In Go the new
version is allocated inside the callback on success; here the caller passes
the value the allocation would produce (`allocVersion`) and bumps the counter
exactly when the callback succeeds. -/
def updateValueCallback (vl : String) (oldVersion allocVersion : Nat)
    (currentVersion : Nat) : Option (String × Nat) :=
  if currentVersion = 0 then none
  else if oldVersion ≠ 0 ∧ currentVersion ≠ oldVersion then none
  else some (vl, allocVersion)

/-- The `CheckAndSet` callback installed by `tryCreateOrUpdateValue`:
an absent slot is overwritten with the pre-allocated version; otherwise a
version check guards a write under a second allocation. -/
def createOrUpdateValueCallback (vl : String) (oldVersion preVersion allocVersion : Nat)
    (currentVersion : Nat) : Option (String × Nat) :=
  if currentVersion = 0 then some (vl, preVersion)
  else if oldVersion ≠ 0 ∧ currentVersion ≠ oldVersion then none
  else some (vl, allocVersion)

/-- Outcome of one attempt of a storage operation (`tryX` in
memorystorage.go).  `retryGone` is `ErrValueRemoved` (the enclosing loop
re-runs the attempt); `panicked` is the zero-version panic in `Value.set`. -/
inductive TryRes (α : Type) where
  | closedErr
  | retryGone
  | panicked
  | done (a : α) (s : Storage) (evs : Events)
deriving Repr, DecidableEq

/-- Model of `tryGetValue` (memorystorage.go). -/
def tryGetValue (s : Storage) (key : String) : TryRes (String × Nat) :=
  if s.isClosed1 then .closedErr
  else match lookupV s.values key with
  | none => .done ("", 0) s []
  | some value =>
    match value.Get with
    | .error _ => .retryGone
    | .ok (vl, version) => .done (vl, version) s []

/-- Model of `Value.RemoveWatcher` together with its remover closure
`func() { ms.values.Delete(key) }`, as invoked by the storage layer. -/
def storageRemoveWatcher (s : Storage) (key : String) (wid : Nat) : Storage :=
  match lookupV s.values key with
  | none => s
  | some value =>
    match value.RemoveWatcher wid with
    | .error _ => s
    | .ok out =>
      { s with values :=
        if out.removed then delEntry s.values key
        else setEntry s.values key out.value }

/-- Outcome of one attempt of `tryWaitForValue`:  either an immediate return,
or the goroutine parks on its freshly attached watcher `wid`. -/
inductive WaitRes where
  | closedErr
  | retryGone
  | immediate (vl : String) (version : Nat) (s : Storage)
  | blocked (wid : Nat) (s : Storage)
deriving Repr, DecidableEq

/-- The tail of `tryWaitForValue` after the load-or-store: `AddWatcher` on
the loaded value, `Get`, and either the immediate return (running the
deferred `RemoveWatcher`) or parking on the fresh watcher.  `s1` is the state
after the load-or-store. -/
def waitAttach (s1 : Storage) (key : String) (oldVersion : Nat) (value : Value) :
    WaitRes :=
  match value.AddWatcher s1.watcherSeq with
  | .error _ => .retryGone
  | .ok value1 =>
    let wid := s1.watcherSeq
    let s2 := { s1 with watcherSeq := wid + 1, values := setEntry s1.values key value1 }
    if value1.version ≠ 0 ∧ (oldVersion = 0 ∨ value1.version ≠ oldVersion) then
      .immediate value1.v value1.version (storageRemoveWatcher s2 key wid)
    else
      .blocked wid s2

/-- Model of `tryWaitForValue` (memorystorage.go): load-or-store an empty value, then
attach a watcher, read the pair, and return immediately iff
`version ≠ 0 ∧ (oldVersion = 0 ∨ version ≠ oldVersion)`; otherwise park on
the watcher. -/
def tryWaitForValue (s : Storage) (key : String) (oldVersion : Nat) : WaitRes :=
  if s.isClosed1 then .closedErr
  else
    match lookupV s.values key with
    | some value => waitAttach s key oldVersion value
    | none =>
      let fresh : Value := { v := "", version := 0, watchers := [], isRemoved := false }
      waitAttach { s with values := setEntry s.values key fresh } key oldVersion fresh

/-- Model of `tryCreateValue` (memorystorage.go): allocate a version, build the fresh
value, load-or-store; on an existing key, `CheckAndSet` with
`createValueCallback`. -/
def tryCreateValue (s : Storage) (key vl : String) : TryRes Nat :=
  if s.isClosed1 then .closedErr
  else
    let version := s.version + 1
    let s1 := { s with version := version }
    match NewValue vl version with
    | none => .panicked
    | some newVal =>
      match lookupV s1.values key with
      | none => .done version { s1 with values := setEntry s1.values key newVal } []
      | some value =>
        match value.CheckAndSet (createValueCallback vl version) with
        | .error _ => .retryGone
        | .ok .panicked => .panicked
        | .ok (.notApplied _) => .done 0 s1 []
        | .ok (.applied value1 evs) =>
          .done version { s1 with values := setEntry s1.values key value1 } evs

/-- Model of `tryUpdateValue` (memorystorage.go): no entry means failure; otherwise
`CheckAndSet` with `updateValueCallback`, consuming a version tick exactly
when the callback succeeds. -/
def tryUpdateValue (s : Storage) (key vl : String) (oldVersion : Nat) : TryRes Nat :=
  if s.isClosed1 then .closedErr
  else match lookupV s.values key with
  | none => .done 0 s []
  | some value =>
    match value.CheckAndSet (updateValueCallback vl oldVersion (s.version + 1)) with
    | .error _ => .retryGone
    | .ok .panicked => .panicked
    | .ok (.notApplied _) => .done 0 s []
    | .ok (.applied value1 evs) =>
      .done (s.version + 1)
        { s with version := s.version + 1, values := setEntry s.values key value1 } evs

/-- Model of `tryCreateOrUpdateValue` (memorystorage.go): pre-allocate a version and a
fresh value, load-or-store; on an existing key, `CheckAndSet` with
`createOrUpdateValueCallback`; the pre-allocated version is returned when the
slot was absent (Go's `newVersion == 0` check), the second allocation
otherwise. -/
def tryCreateOrUpdateValue (s : Storage) (key vl : String) (oldVersion : Nat) :
    TryRes Nat :=
  if s.isClosed1 then .closedErr
  else
    let version := s.version + 1
    let s1 := { s with version := version }
    match NewValue vl version with
    | none => .panicked
    | some newVal =>
      match lookupV s1.values key with
      | none => .done version { s1 with values := setEntry s1.values key newVal } []
      | some value =>
        match value.CheckAndSet
            (createOrUpdateValueCallback vl oldVersion version (version + 1)) with
        | .error _ => .retryGone
        | .ok .panicked => .panicked
        | .ok (.notApplied _) => .done 0 s1 []
        | .ok (.applied value1 evs) =>
          if value.version = 0 then
            .done version { s1 with values := setEntry s1.values key value1 } evs
          else
            .done (version + 1)
              { s1 with version := version + 1,
                        values := setEntry s1.values key value1 } evs

/-- Model of `tryDeleteValue` (memorystorage.go): no entry means `false`; otherwise
`Value.Clear` with the remover deleting the map entry. -/
def tryDeleteValue (s : Storage) (key : String) (version : Nat) : TryRes Bool :=
  if s.isClosed1 then .closedErr
  else match lookupV s.values key with
  | none => .done false s []
  | some value =>
    match value.Clear version with
    | .error _ => .retryGone
    | .ok out =>
      .done out.ok
        { s with values :=
          if out.removed then delEntry s.values key
          else setEntry s.values key out.value } []

/-- Model of `Close` (memorystorage.go): swap the closed flag; a second close returns
`ErrStorageClosed` (the `Bool` component). -/
def Close (s : Storage) : Bool × Storage :=
  if s.isClosed1 then (true, s) else (false, { s with isClosed1 := true })

/-- Model of `nextVersion` (memorystorage.go): `atomic.AddUint64` increments
the `uint64` counter by one and returns it, wrapping at 2^64 — after exactly
2^64 allocations the returned version is 0 again. -/
def nextVersion (n : Nat) : Nat := (n + 1) % 2 ^ 64

/-- Variant of `tryCreateValue` whose version allocation is the faithful
wrapping `nextVersion` instead of the unbounded increment; identical to
`tryCreateValue` while the counter stays below 2^64 - 1. -/
def tryCreateValueWrap (s : Storage) (key vl : String) : TryRes Nat :=
  if s.isClosed1 then .closedErr
  else
    let version := nextVersion s.version
    let s1 := { s with version := version }
    match NewValue vl version with
    | none => .panicked
    | some newVal =>
      match lookupV s1.values key with
      | none => .done version { s1 with values := setEntry s1.values key newVal } []
      | some value =>
        match value.CheckAndSet (createValueCallback vl version) with
        | .error _ => .retryGone
        | .ok .panicked => .panicked
        | .ok (.notApplied _) => .done 0 s1 []
        | .ok (.applied value1 evs) =>
          .done version { s1 with values := setEntry s1.values key value1 } evs

/-- Variant of `tryUpdateValue` whose version allocation is the faithful
wrapping `nextVersion`. -/
def tryUpdateValueWrap (s : Storage) (key vl : String) (oldVersion : Nat) :
    TryRes Nat :=
  if s.isClosed1 then .closedErr
  else match lookupV s.values key with
  | none => .done 0 s []
  | some value =>
    match value.CheckAndSet
        (updateValueCallback vl oldVersion (nextVersion s.version)) with
    | .error _ => .retryGone
    | .ok .panicked => .panicked
    | .ok (.notApplied _) => .done 0 s []
    | .ok (.applied value1 evs) =>
      .done (nextVersion s.version)
        { s with version := nextVersion s.version,
                 values := setEntry s.values key value1 } evs

/-- Variant of `tryCreateOrUpdateValue` whose two version allocations are the
faithful wrapping `nextVersion`. -/
def tryCreateOrUpdateValueWrap (s : Storage) (key vl : String)
    (oldVersion : Nat) : TryRes Nat :=
  if s.isClosed1 then .closedErr
  else
    let version := nextVersion s.version
    let s1 := { s with version := version }
    match NewValue vl version with
    | none => .panicked
    | some newVal =>
      match lookupV s1.values key with
      | none => .done version { s1 with values := setEntry s1.values key newVal } []
      | some value =>
        match value.CheckAndSet
            (createOrUpdateValueCallback vl oldVersion version
              (nextVersion version)) with
        | .error _ => .retryGone
        | .ok .panicked => .panicked
        | .ok (.notApplied _) => .done 0 s1 []
        | .ok (.applied value1 evs) =>
          if value.version = 0 then
            .done version { s1 with values := setEntry s1.values key value1 } evs
          else
            .done (nextVersion version)
              { s1 with version := nextVersion version,
                        values := setEntry s1.values key value1 } evs

/-- A public operation's outcome, after the retry loop and the opaque version
conversion.  `diverge` covers the sequentially unreachable cases (an endless
`ErrValueRemoved` retry, or the zero-version panic). -/
inductive PubRes (α : Type) where
  | closedErr
  | diverge
  | ok (a : α) (s : Storage) (evs : Events)
deriving Repr, DecidableEq

/-- Public `GetValue`: `tryGetValue` under the retry loop, versions boxed by
`version2OpaqueVersion`. -/
def GetValue (s : Storage) (key : String) : PubRes (String × Option Nat) :=
  match tryGetValue s key with
  | .closedErr => .closedErr
  | .retryGone => .diverge
  | .panicked => .diverge
  | .done (vl, version) s1 evs => .ok (vl, version2OpaqueVersion version) s1 evs

/-- Public `CreateValue`. -/
def CreateValue (s : Storage) (key vl : String) : PubRes (Option Nat) :=
  match tryCreateValue s key vl with
  | .closedErr => .closedErr
  | .retryGone => .diverge
  | .panicked => .diverge
  | .done version s1 evs => .ok (version2OpaqueVersion version) s1 evs

/-- Public `UpdateValue` (the opaque old version is unboxed on entry). -/
def UpdateValue (s : Storage) (key vl : String) (opaqueOldVersion : Option Nat) :
    PubRes (Option Nat) :=
  match tryUpdateValue s key vl (opaqueVersion2Version opaqueOldVersion) with
  | .closedErr => .closedErr
  | .retryGone => .diverge
  | .panicked => .diverge
  | .done version s1 evs => .ok (version2OpaqueVersion version) s1 evs

/-- Public `CreateOrUpdateValue`. -/
def CreateOrUpdateValue (s : Storage) (key vl : String)
    (opaqueOldVersion : Option Nat) : PubRes (Option Nat) :=
  match tryCreateOrUpdateValue s key vl (opaqueVersion2Version opaqueOldVersion) with
  | .closedErr => .closedErr
  | .retryGone => .diverge
  | .panicked => .diverge
  | .done version s1 evs => .ok (version2OpaqueVersion version) s1 evs

/-- Public `DeleteValue`. -/
def DeleteValue (s : Storage) (key : String) (opaqueVersion : Option Nat) :
    PubRes Bool :=
  match tryDeleteValue s key (opaqueVersion2Version opaqueVersion) with
  | .closedErr => .closedErr
  | .retryGone => .diverge
  | .panicked => .diverge
  | .done ok s1 evs => .ok ok s1 evs

/-- Outcome of public `WaitForValue` seen from the caller: either an
immediate return (with boxed version) or parking on a watcher. -/
inductive WaitOut where
  | closedErr
  | diverge
  | immediate (vl : String) (newVersion : Option Nat) (s : Storage)
  | blocked (wid : Nat) (s : Storage)
deriving Repr, DecidableEq

/-- Public `WaitForValue`. -/
def WaitForValue (s : Storage) (key : String) (opaqueOldVersion : Option Nat) :
    WaitOut :=
  match tryWaitForValue s key (opaqueVersion2Version opaqueOldVersion) with
  | .closedErr => .closedErr
  | .retryGone => .diverge
  | .immediate vl version s1 => .immediate vl (version2OpaqueVersion version) s1
  | .blocked wid s1 => .blocked wid s1

/-- The `case <-watcher.Event()` branch of a parked `WaitForValue`: the fired
payload is returned through `version2OpaqueVersion`. -/
def waitResume (args : EventArgs) : String × Option Nat :=
  (args.value, version2OpaqueVersion args.version)

/-- One sequential public operation, for whole-history invariants.
`cancelWait` is the `ctx.Done()` exit of a previously parked `WaitForValue`
(it runs the deferred `RemoveWatcher`). -/
inductive Op where
  | get (key : String)
  | wait (key : String) (old : Nat)
  | cancelWait (key : String) (wid : Nat)
  | create (key vl : String)
  | update (key vl : String) (old : Nat)
  | createOrUpdate (key vl : String) (old : Nat)
  | delete (key : String) (ver : Nat)
  | close
deriving Repr, DecidableEq

/-- Final state of a try outcome (the state is unchanged unless the attempt
completed). -/
def TryRes.stateD {α : Type} (r : TryRes α) (s0 : Storage) : Storage :=
  match r with
  | .done _ s _ => s
  | _ => s0

/-- The version a completed create/update/createOrUpdate attempt hands back
to the caller, boxed: `none` exactly when the call was unsuccessful. -/
def TryRes.ret (r : TryRes Nat) : Option Nat :=
  match r with
  | .done v _ _ => version2OpaqueVersion v
  | _ => none

/-- Final state of a wait attempt. -/
def WaitRes.stateD (r : WaitRes) (s0 : Storage) : Storage :=
  match r with
  | .immediate _ _ s => s
  | .blocked _ s => s
  | _ => s0

/-- One step of the sequential semantics; the second component is the version
returned by a successful `CreateValue`/`UpdateValue`/`CreateOrUpdateValue`. -/
def step (s : Storage) : Op → Storage × Option Nat
  | .get key => ((tryGetValue s key).stateD s, none)
  | .wait key old => ((tryWaitForValue s key old).stateD s, none)
  | .cancelWait key wid => (storageRemoveWatcher s key wid, none)
  | .create key vl =>
    let r := tryCreateValue s key vl
    (r.stateD s, r.ret)
  | .update key vl old =>
    let r := tryUpdateValue s key vl old
    (r.stateD s, r.ret)
  | .createOrUpdate key vl old =>
    let r := tryCreateOrUpdateValue s key vl old
    (r.stateD s, r.ret)
  | .delete key ver => ((tryDeleteValue s key ver).stateD s, none)
  | .close => ((Close s).2, none)

/-- Run a history of operations; collect the final state and, in completion
order, the versions returned by successful create/update/createOrUpdate. -/
def runTrace : Storage → List Op → Storage × List Nat
  | s, [] => (s, [])
  | s, op :: ops =>
    let r := step s op
    let rest := runTrace r.1 ops
    (rest.1, (match r.2 with | some v => [v] | none => []) ++ rest.2)

/-- Well-formedness of one map entry: live, and not GC-eligible (an absent
value keeps at least one watcher attached). -/
def WFv (val : Value) : Prop :=
  (val.version = 0 → val.watchers ≠ []) ∧ val.isRemoved = false

/-- Well-formedness of the storage map: every entry is live and not
GC-eligible. -/
def WF (s : Storage) : Prop :=
  ∀ kv ∈ s.values, WFv kv.2

/-! ## Helper lemmas about the map model -/

/-- Membership after `setEntry`: the new entry or an old one. -/
theorem mem_setEntry {m : List (String × Value)} {k : String} {v : Value}
    {kv : String × Value} (h : kv ∈ setEntry m k v) : kv = (k, v) ∨ kv ∈ m := by
  induction m with
  | nil =>
    simp only [setEntry, List.mem_singleton] at h
    exact Or.inl h
  | cons hd tl ih =>
    simp only [setEntry] at h
    by_cases hk : hd.1 = k
    · rw [if_pos hk] at h
      rcases List.mem_cons.mp h with h1 | h1
      · exact Or.inl h1
      · exact Or.inr (List.mem_cons_of_mem hd h1)
    · rw [if_neg hk] at h
      rcases List.mem_cons.mp h with h1 | h1
      · exact Or.inr (h1 ▸ List.mem_cons_self hd tl)
      · rcases ih h1 with h2 | h2
        · exact Or.inl h2
        · exact Or.inr (List.mem_cons_of_mem hd h2)

/-- Membership after `delEntry` implies membership before. -/
theorem mem_delEntry {m : List (String × Value)} {k : String}
    {kv : String × Value} (h : kv ∈ delEntry m k) : kv ∈ m := by
  induction m with
  | nil => simp [delEntry] at h
  | cons hd tl ih =>
    simp only [delEntry] at h
    by_cases hk : hd.1 = k
    · rw [if_pos hk] at h
      exact List.mem_cons_of_mem hd h
    · rw [if_neg hk] at h
      rcases List.mem_cons.mp h with h1 | h1
      · exact h1 ▸ List.mem_cons_self hd tl
      · exact List.mem_cons_of_mem hd (ih h1)

/-- A successful lookup is a member of the list. -/
theorem lookupV_mem {m : List (String × Value)} {k : String} {v : Value}
    (h : lookupV m k = some v) : (k, v) ∈ m := by
  induction m with
  | nil => simp [lookupV] at h
  | cons hd tl ih =>
    rcases hd with ⟨k1, v1⟩
    simp only [lookupV] at h
    by_cases hk : k1 = k
    · rw [if_pos hk] at h
      subst hk
      obtain rfl := Option.some.inj h
      exact List.mem_cons_self _ _
    · rw [if_neg hk] at h
      exact List.mem_cons_of_mem _ (ih h)

/-- Overwriting the same key twice collapses to the second write. -/
theorem setEntry_setEntry (m : List (String × Value)) (k : String) (v w : Value) :
    setEntry (setEntry m k v) k w = setEntry m k w := by
  induction m with
  | nil => simp [setEntry]
  | cons hd tl ih =>
    simp only [setEntry]
    by_cases hk : hd.1 = k
    · rw [if_pos hk, if_pos hk]
      simp [setEntry]
    · rw [if_neg hk, if_neg hk]
      simp only [setEntry, if_neg hk, ih]

/-! ## Shape lemmas about the value operations -/

/-- An applied `CheckAndSet` writes the callback's pair, empties the watcher
set, fires exactly the previously attached watchers with that pair, and only
runs on a live (non-tombstoned) value with a non-zero new version. -/
theorem checkAndSet_applied_shape {val : Value} {cb : Nat → Option (String × Nat)}
    {value1 : Value} {evs : Events}
    (h : val.CheckAndSet cb = .ok (.applied value1 evs)) :
    ∃ vv ver, cb val.version = some (vv, ver) ∧ ver ≠ 0 ∧
      val.isRemoved = false ∧
      value1 = ⟨vv, ver, [], false⟩ ∧
      evs = val.watchers.map fun w => (w, ⟨vv, ver⟩) := by
  unfold Value.CheckAndSet at h
  by_cases hrem : val.isRemoved
  · rw [if_pos hrem] at h
    exact absurd h (by simp)
  · rw [if_neg hrem] at h
    rcases hcb : cb val.version with _ | p
    · rw [hcb] at h
      simp at h
    · rcases p with ⟨vv, ver⟩
      rw [hcb] at h
      by_cases hz : ver = 0
      · simp only [Value.set, if_pos hz] at h
        simp at h
      · simp only [Value.set, if_neg hz] at h
        refine ⟨vv, ver, rfl, hz, eq_false_of_ne_true ?_, ?_, ?_⟩
        · simpa using hrem
        · have := (Except.ok.inj h)
          cases this
          simp [eq_false_of_ne_true (by simpa using hrem)]
        · have := (Except.ok.inj h)
          cases this
          rfl

/-- Case analysis of a non-tombstoned `Clear`: either a failed precondition
(no change), or a successful clear that removed the value, or a successful
clear that kept it alive because watchers are still attached. -/
theorem clear_cases {val : Value} {ver : Nat} {out : ClearOut}
    (h : val.Clear ver = .ok out) :
    val.isRemoved = false ∧
    ((out.ok = false ∧ out.value = val ∧ out.removed = false) ∨
     out.removed = true ∨
     (out.ok = true ∧ out.value = ⟨"", 0, val.watchers, false⟩ ∧
       val.watchers ≠ [] ∧ out.removed = false)) := by
  unfold Value.Clear at h
  by_cases hrem : val.isRemoved
  · rw [if_pos hrem] at h
    simp at h
  · rw [if_neg hrem] at h
    refine ⟨eq_false_of_ne_true (by simpa using hrem), ?_⟩
    by_cases h0 : val.version = 0
    · rw [if_pos h0] at h
      obtain rfl := Except.ok.inj h
      exact Or.inl ⟨rfl, rfl, rfl⟩
    · rw [if_neg h0] at h
      by_cases hmis : ver ≠ 0 ∧ val.version ≠ ver
      · rw [if_pos hmis] at h
        obtain rfl := Except.ok.inj h
        exact Or.inl ⟨rfl, rfl, rfl⟩
      · rw [if_neg hmis] at h
        by_cases hw : val.watchers = []
        · simp only [hw, if_pos rfl] at h
          obtain rfl := Except.ok.inj h
          exact Or.inr (Or.inl rfl)
        · simp only [if_neg hw] at h
          obtain rfl := Except.ok.inj h
          refine Or.inr (Or.inr ⟨rfl, ?_, hw, rfl⟩)
          simp [eq_false_of_ne_true (by simpa using hrem)]

/-- Storage fields untouched by `storageRemoveWatcher`. -/
theorem storageRemoveWatcher_fields (s : Storage) (key : String) (wid : Nat) :
    (storageRemoveWatcher s key wid).version = s.version ∧
    (storageRemoveWatcher s key wid).isClosed1 = s.isClosed1 ∧
    (storageRemoveWatcher s key wid).watcherSeq = s.watcherSeq := by
  unfold storageRemoveWatcher
  split
  · exact ⟨rfl, rfl, rfl⟩
  · split
    · exact ⟨rfl, rfl, rfl⟩
    · exact ⟨rfl, rfl, rfl⟩

/-- Lemma: `storageRemoveWatcher` preserves well-formedness. -/
theorem WF_storageRemoveWatcher {s : Storage} (hs : WF s) (key : String) (wid : Nat) :
    WF (storageRemoveWatcher s key wid) := by
  unfold storageRemoveWatcher
  split
  · exact hs
  · rename_i value hlook
    have hval : WFv value := hs _ (lookupV_mem hlook)
    have hrem : value.isRemoved = false := hval.2
    unfold Value.RemoveWatcher
    rw [hrem]
    simp only [Bool.false_eq_true, if_false]
    by_cases hin : wid ∈ value.watchers
    · rw [if_pos hin]
      by_cases hlen : 1 ≤ (value.watchers.erase wid).length
      · rw [if_pos hlen]
        intro kv hkv
        simp only [Bool.false_eq_true, if_false] at hkv
        rcases mem_setEntry hkv with rfl | h2
        · refine ⟨fun _ => ?_, rfl⟩
          show value.watchers.erase wid ≠ []
          intro hnil
          rw [hnil] at hlen
          simp at hlen
        · exact hs _ h2
      · rw [if_neg hlen]
        by_cases h0 : value.version = 0
        · rw [if_pos h0]
          intro kv hkv
          simp only [if_pos rfl] at hkv
          exact hs _ (mem_delEntry hkv)
        · rw [if_neg h0]
          intro kv hkv
          simp only [Bool.false_eq_true, if_false] at hkv
          rcases mem_setEntry hkv with rfl | h2
          · exact ⟨fun hz => absurd hz h0, rfl⟩
          · exact hs _ h2
    · rw [if_neg hin]
      intro kv hkv
      simp only [Bool.false_eq_true, if_false] at hkv
      rcases mem_setEntry hkv with rfl | h2
      · exact hval
      · exact hs _ h2

/-! ## Version accounting of single attempts -/

/-- Building a value under a freshly allocated (hence positive) version never
panics and yields exactly the fresh pair. -/
theorem NewValue_succ (vl : String) (n : Nat) :
    NewValue vl (n + 1) = some ⟨vl, n + 1, [], false⟩ := by
  simp [NewValue, Value.set]

/-- Lemma: `tryGetValue` never changes the state. -/
theorem tryGetValue_stateD (s : Storage) (key : String) :
    (tryGetValue s key).stateD s = s := by
  unfold tryGetValue
  split
  · rfl
  · split
    · rfl
    · split
      · rfl
      · rfl

/-- The attach phase touches neither the version counter nor the closed
flag (relative to an entry state agreeing on those fields). -/
theorem waitAttach_fields (s0 s1 : Storage) (key : String) (old : Nat)
    (value : Value) (h1 : s1.version = s0.version)
    (h2 : s1.isClosed1 = s0.isClosed1) :
    ((waitAttach s1 key old value).stateD s0).version = s0.version ∧
    ((waitAttach s1 key old value).stateD s0).isClosed1 = s0.isClosed1 := by
  unfold waitAttach
  split
  · exact ⟨rfl, rfl⟩
  · dsimp only
    split
    · simp only [WaitRes.stateD]
      constructor
      · rw [(storageRemoveWatcher_fields _ _ _).1]
        exact h1
      · rw [(storageRemoveWatcher_fields _ _ _).2.1]
        exact h2
    · simp only [WaitRes.stateD]
      exact ⟨h1, h2⟩

/-- Lemma: `tryWaitForValue` touches neither the version counter nor the closed
flag. -/
theorem tryWaitForValue_fields (s : Storage) (key : String) (old : Nat) :
    ((tryWaitForValue s key old).stateD s).version = s.version ∧
    ((tryWaitForValue s key old).stateD s).isClosed1 = s.isClosed1 := by
  unfold tryWaitForValue
  split
  · exact ⟨rfl, rfl⟩
  · split
    · exact waitAttach_fields s s key old _ rfl rfl
    · exact waitAttach_fields s _ key old _ rfl rfl

/-- Version accounting of one `tryCreateValue` attempt: the counter never
decreases, and a version handed back to the caller lies strictly above the
entry counter and at most at the exit counter. -/
theorem tryCreateValue_bound (s : Storage) (key vl : String) :
    s.version ≤ ((tryCreateValue s key vl).stateD s).version ∧
    ∀ v, (tryCreateValue s key vl).ret = some v →
      s.version < v ∧ v ≤ ((tryCreateValue s key vl).stateD s).version := by
  by_cases hc : s.isClosed1
  · simp [tryCreateValue, hc, TryRes.stateD, TryRes.ret]
  · rcases hl : lookupV s.values key with _ | value
    · simp only [tryCreateValue, hc, Bool.false_eq_true, if_false, NewValue_succ, hl]
      refine ⟨Nat.le_succ _, ?_⟩
      intro v hv
      simp only [TryRes.ret, version2OpaqueVersion, Nat.succ_ne_zero, if_false] at hv
      obtain rfl := Option.some.inj hv
      exact ⟨Nat.lt_succ_self _, le_refl _⟩
    · rcases hcas : value.CheckAndSet (createValueCallback vl (s.version + 1))
        with e | res
      · simp [tryCreateValue, hc, NewValue_succ, hl, hcas, TryRes.stateD, TryRes.ret]
      · rcases res with val1 | ⟨val1, evs⟩ | _
        · simp [tryCreateValue, hc, NewValue_succ, hl, hcas, TryRes.stateD, TryRes.ret,
            version2OpaqueVersion]
        · simp only [tryCreateValue, hc, Bool.false_eq_true, if_false, NewValue_succ,
            hl, hcas, TryRes.stateD, TryRes.ret]
          refine ⟨Nat.le_succ _, ?_⟩
          intro v hv
          simp only [version2OpaqueVersion, Nat.succ_ne_zero, if_false] at hv
          obtain rfl := Option.some.inj hv
          exact ⟨Nat.lt_succ_self _, le_refl _⟩
        · simp [tryCreateValue, hc, NewValue_succ, hl, hcas, TryRes.stateD, TryRes.ret]

/-- Version accounting of one `tryUpdateValue` attempt. -/
theorem tryUpdateValue_bound (s : Storage) (key vl : String) (old : Nat) :
    s.version ≤ ((tryUpdateValue s key vl old).stateD s).version ∧
    ∀ v, (tryUpdateValue s key vl old).ret = some v →
      s.version < v ∧ v ≤ ((tryUpdateValue s key vl old).stateD s).version := by
  by_cases hc : s.isClosed1
  · simp [tryUpdateValue, hc, TryRes.stateD, TryRes.ret]
  · rcases hl : lookupV s.values key with _ | value
    · simp [tryUpdateValue, hc, hl, TryRes.stateD, TryRes.ret, version2OpaqueVersion]
    · rcases hcas : value.CheckAndSet (updateValueCallback vl old (s.version + 1))
        with e | res
      · simp [tryUpdateValue, hc, hl, hcas, TryRes.stateD, TryRes.ret]
      · rcases res with val1 | ⟨val1, evs⟩ | _
        · simp [tryUpdateValue, hc, hl, hcas, TryRes.stateD, TryRes.ret,
            version2OpaqueVersion]
        · simp only [tryUpdateValue, hc, Bool.false_eq_true, if_false, hl, hcas,
            TryRes.stateD, TryRes.ret]
          refine ⟨Nat.le_succ _, ?_⟩
          intro v hv
          simp only [version2OpaqueVersion, Nat.succ_ne_zero, if_false] at hv
          obtain rfl := Option.some.inj hv
          exact ⟨Nat.lt_succ_self _, le_refl _⟩
        · simp [tryUpdateValue, hc, hl, hcas, TryRes.stateD, TryRes.ret]

/-- Version accounting of one `tryCreateOrUpdateValue` attempt. -/
theorem tryCreateOrUpdateValue_bound (s : Storage) (key vl : String) (old : Nat) :
    s.version ≤ ((tryCreateOrUpdateValue s key vl old).stateD s).version ∧
    ∀ v, (tryCreateOrUpdateValue s key vl old).ret = some v →
      s.version < v ∧ v ≤ ((tryCreateOrUpdateValue s key vl old).stateD s).version := by
  by_cases hc : s.isClosed1
  · simp [tryCreateOrUpdateValue, hc, TryRes.stateD, TryRes.ret]
  · rcases hl : lookupV s.values key with _ | value
    · simp only [tryCreateOrUpdateValue, hc, Bool.false_eq_true, if_false,
        NewValue_succ, hl]
      refine ⟨Nat.le_succ _, ?_⟩
      intro v hv
      simp only [TryRes.ret, version2OpaqueVersion, Nat.succ_ne_zero, if_false] at hv
      obtain rfl := Option.some.inj hv
      exact ⟨Nat.lt_succ_self _, le_refl _⟩
    · rcases hcas : value.CheckAndSet
        (createOrUpdateValueCallback vl old (s.version + 1) (s.version + 1 + 1))
        with e | res
      · simp [tryCreateOrUpdateValue, hc, NewValue_succ, hl, hcas, TryRes.stateD,
          TryRes.ret]
      · rcases res with val1 | ⟨val1, evs⟩ | _
        · simp [tryCreateOrUpdateValue, hc, NewValue_succ, hl, hcas, TryRes.stateD,
            TryRes.ret, version2OpaqueVersion, Nat.le_succ]
        · by_cases h0 : value.version = 0
          · simp only [tryCreateOrUpdateValue, hc, Bool.false_eq_true, if_false,
              NewValue_succ, hl, hcas, h0, if_pos rfl, TryRes.stateD, TryRes.ret]
            refine ⟨Nat.le_succ _, ?_⟩
            intro v hv
            simp only [version2OpaqueVersion, Nat.succ_ne_zero, if_false] at hv
            obtain rfl := Option.some.inj hv
            exact ⟨Nat.lt_succ_self _, le_refl _⟩
          · simp only [tryCreateOrUpdateValue, hc, Bool.false_eq_true, if_false,
              NewValue_succ, hl, hcas, h0, if_neg h0, TryRes.stateD, TryRes.ret]
            refine ⟨le_trans (Nat.le_succ _) (Nat.le_succ _), ?_⟩
            intro v hv
            simp only [version2OpaqueVersion, Nat.succ_ne_zero, if_false] at hv
            obtain rfl := Option.some.inj hv
            exact ⟨Nat.lt_of_lt_of_le (Nat.lt_succ_self _) (Nat.le_succ _), le_refl _⟩
        · simp [tryCreateOrUpdateValue, hc, NewValue_succ, hl, hcas, TryRes.stateD,
            TryRes.ret]

/-- Lemma: `tryDeleteValue` touches neither the version counter nor the closed
flag. -/
theorem tryDeleteValue_fields (s : Storage) (key : String) (ver : Nat) :
    ((tryDeleteValue s key ver).stateD s).version = s.version ∧
    ((tryDeleteValue s key ver).stateD s).isClosed1 = s.isClosed1 := by
  unfold tryDeleteValue
  split
  · exact ⟨rfl, rfl⟩
  · split
    · exact ⟨rfl, rfl⟩
    · split
      · exact ⟨rfl, rfl⟩
      · exact ⟨rfl, rfl⟩

/-- One step never decreases the version counter, and any version it hands
back lies strictly above the entry counter and at most at the exit
counter. -/
theorem step_bound (s : Storage) (op : Op) :
    s.version ≤ (step s op).1.version ∧
    ∀ v, (step s op).2 = some v → s.version < v ∧ v ≤ (step s op).1.version := by
  cases op with
  | get key =>
    constructor
    · show s.version ≤ ((tryGetValue s key).stateD s).version
      rw [tryGetValue_stateD]
    · intro v hv
      simp [step] at hv
  | wait key old =>
    constructor
    · show s.version ≤ ((tryWaitForValue s key old).stateD s).version
      rw [(tryWaitForValue_fields s key old).1]
    · intro v hv
      simp [step] at hv
  | cancelWait key wid =>
    constructor
    · show s.version ≤ (storageRemoveWatcher s key wid).version
      rw [(storageRemoveWatcher_fields s key wid).1]
    · intro v hv
      simp [step] at hv
  | create key vl => exact tryCreateValue_bound s key vl
  | update key vl old => exact tryUpdateValue_bound s key vl old
  | createOrUpdate key vl old => exact tryCreateOrUpdateValue_bound s key vl old
  | delete key ver =>
    constructor
    · show s.version ≤ ((tryDeleteValue s key ver).stateD s).version
      rw [(tryDeleteValue_fields s key ver).1]
    · intro v hv
      simp [step] at hv
  | close =>
    constructor
    · show s.version ≤ (Close s).2.version
      unfold Close
      split
      · exact le_refl _
      · exact le_refl _
    · intro v hv
      simp [step] at hv

/-- Along any history, the counter never decreases, the versions handed back
are strictly increasing, and each of them lies strictly above the entry
counter and at most at the exit counter. -/
theorem runTrace_bound (ops : List Op) (s : Storage) :
    s.version ≤ (runTrace s ops).1.version ∧
    List.Pairwise (fun a b => a < b) (runTrace s ops).2 ∧
    ∀ v ∈ (runTrace s ops).2,
      s.version < v ∧ v ≤ (runTrace s ops).1.version := by
  induction ops generalizing s with
  | nil => simp [runTrace]
  | cons op ops ih =>
    obtain ⟨hmono, hret⟩ := step_bound s op
    obtain ⟨ihmono, ihpw, ihmem⟩ := ih (step s op).1
    refine ⟨le_trans hmono ihmono, ?_, ?_⟩
    · show List.Pairwise _
        ((match (step s op).2 with | some v => [v] | none => []) ++
          (runTrace (step s op).1 ops).2)
      rcases hv : (step s op).2 with _ | v
      · simpa using ihpw
      · simp only [List.singleton_append, List.pairwise_cons]
        refine ⟨?_, ihpw⟩
        intro b hb
        exact lt_of_le_of_lt (hret v hv).2 (ihmem b hb).1
    · intro v hv
      show s.version < v ∧ v ≤ (runTrace (step s op).1 ops).1.version
      rcases hr : (step s op).2 with _ | w
      · have hv2 : v ∈ (runTrace (step s op).1 ops).2 := by
          simpa [runTrace, hr] using hv
        exact ⟨lt_of_le_of_lt hmono (ihmem v hv2).1, (ihmem v hv2).2⟩
      · have hv2 : v = w ∨ v ∈ (runTrace (step s op).1 ops).2 := by
          simpa [runTrace, hr] using hv
        rcases hv2 with rfl | hv2
        · exact ⟨(hret v hr).1, le_trans (hret v hr).2 ihmono⟩
        · exact ⟨lt_of_le_of_lt hmono (ihmem v hv2).1, (ihmem v hv2).2⟩

/-! ## Preservation of well-formedness -/

/-- The attach phase preserves well-formedness: in every exit path the state
is the entry state, the state with the watcher attached, or the latter after
the deferred watcher removal. -/
theorem WF_waitAttach {s0 s1 : Storage} {key : String} {old : Nat} {value : Value}
    (hs0 : WF s0)
    (h2 : ∀ w : Nat, WF ⟨setEntry s1.values key
      { value with watchers := value.watchers ++ [w] },
      s1.version, s1.isClosed1, s1.watcherSeq + 1⟩) :
    WF ((waitAttach s1 key old value).stateD s0) := by
  unfold waitAttach
  rcases ha : value.AddWatcher s1.watcherSeq with e | value1
  · exact hs0
  · have hv1 : value1 = { value with watchers := value.watchers ++ [s1.watcherSeq] } := by
      unfold Value.AddWatcher at ha
      split at ha
      · simp at ha
      · exact (Except.ok.inj ha).symm
    subst hv1
    dsimp only
    split
    · simp only [WaitRes.stateD]
      exact WF_storageRemoveWatcher (h2 s1.watcherSeq) key s1.watcherSeq
    · simp only [WaitRes.stateD]
      exact h2 s1.watcherSeq

/-- One sequential step preserves well-formedness: no operation ever leaves a
GC-eligible (absent, watcher-free) entry or a tombstoned entry in the map. -/
theorem WF_step {s : Storage} (hs : WF s) (op : Op) : WF (step s op).1 := by
  cases op with
  | get key =>
    show WF ((tryGetValue s key).stateD s)
    rw [tryGetValue_stateD]
    exact hs
  | wait key old =>
    show WF ((tryWaitForValue s key old).stateD s)
    unfold tryWaitForValue
    split
    · exact hs
    · split
      · rename_i value hl
        refine WF_waitAttach hs ?_
        intro w kv hkv
        simp only at hkv
        rcases mem_setEntry hkv with rfl | hmem
        · exact ⟨fun _ => by simp, (hs _ (lookupV_mem hl)).2⟩
        · exact hs _ hmem
      · refine WF_waitAttach hs ?_
        intro w kv hkv
        simp only [setEntry_setEntry] at hkv
        rcases mem_setEntry hkv with rfl | hmem
        · exact ⟨fun _ => by simp, rfl⟩
        · exact hs _ hmem
  | cancelWait key wid =>
    show WF (storageRemoveWatcher s key wid)
    exact WF_storageRemoveWatcher hs key wid
  | create key vl =>
    show WF ((tryCreateValue s key vl).stateD s)
    unfold tryCreateValue
    split
    · exact hs
    · dsimp only
      rw [NewValue_succ]
      dsimp only
      split
      · intro kv hkv
        rcases mem_setEntry hkv with rfl | hmem
        · exact ⟨fun h0 => absurd h0 (Nat.succ_ne_zero _), rfl⟩
        · exact hs _ hmem
      · rename_i value hl
        rcases hcas : value.CheckAndSet (createValueCallback vl (s.version + 1))
          with e | res
        · exact hs
        · rcases res with val1 | ⟨val1, evs⟩ | _
          · exact hs
          · obtain ⟨vv, ver, hcb, hver, hlive, hval1, hevs⟩ :=
              checkAndSet_applied_shape hcas
            intro kv hkv
            simp only at hkv
            rcases mem_setEntry hkv with rfl | hmem
            · rw [hval1]
              exact ⟨fun h0 => absurd h0 hver, rfl⟩
            · exact hs _ hmem
          · exact hs
  | update key vl old =>
    show WF ((tryUpdateValue s key vl old).stateD s)
    unfold tryUpdateValue
    split
    · exact hs
    · split
      · exact hs
      · rename_i value hl
        rcases hcas : value.CheckAndSet (updateValueCallback vl old (s.version + 1))
          with e | res
        · exact hs
        · rcases res with val1 | ⟨val1, evs⟩ | _
          · exact hs
          · obtain ⟨vv, ver, hcb, hver, hlive, hval1, hevs⟩ :=
              checkAndSet_applied_shape hcas
            intro kv hkv
            simp only at hkv
            rcases mem_setEntry hkv with rfl | hmem
            · rw [hval1]
              exact ⟨fun h0 => absurd h0 hver, rfl⟩
            · exact hs _ hmem
          · exact hs
  | createOrUpdate key vl old =>
    show WF ((tryCreateOrUpdateValue s key vl old).stateD s)
    unfold tryCreateOrUpdateValue
    split
    · exact hs
    · dsimp only
      rw [NewValue_succ]
      dsimp only
      split
      · intro kv hkv
        rcases mem_setEntry hkv with rfl | hmem
        · exact ⟨fun h0 => absurd h0 (Nat.succ_ne_zero _), rfl⟩
        · exact hs _ hmem
      · rename_i value hl
        rcases hcas : value.CheckAndSet
          (createOrUpdateValueCallback vl old (s.version + 1) (s.version + 1 + 1))
          with e | res
        · exact hs
        · rcases res with val1 | ⟨val1, evs⟩ | _
          · exact hs
          · obtain ⟨vv, ver, hcb, hver, hlive, hval1, hevs⟩ :=
              checkAndSet_applied_shape hcas
            dsimp only
            split
            all_goals
              intro kv hkv
              rcases mem_setEntry hkv with rfl | hmem
              · rw [hval1]
                exact ⟨fun h0 => absurd h0 hver, rfl⟩
              · exact hs _ hmem
          · exact hs
  | delete key ver =>
    show WF ((tryDeleteValue s key ver).stateD s)
    unfold tryDeleteValue
    split
    · exact hs
    · split
      · exact hs
      · rename_i value hl
        rcases hcl : value.Clear ver with e | out
        · exact hs
        · obtain ⟨hlive, hcases⟩ := clear_cases hcl
          dsimp only
          rcases hcases with ⟨hok, hval, hrm⟩ | hrm | ⟨hok, hval, hw, hrm⟩
          · rw [hrm]
            intro kv hkv
            simp only [Bool.false_eq_true, if_false] at hkv
            rcases mem_setEntry hkv with rfl | hmem
            · rw [hval]
              exact hs _ (lookupV_mem hl)
            · exact hs _ hmem
          · rw [hrm]
            intro kv hkv
            simp only [if_pos rfl] at hkv
            exact hs _ (mem_delEntry hkv)
          · rw [hrm]
            intro kv hkv
            simp only [Bool.false_eq_true, if_false] at hkv
            rcases mem_setEntry hkv with rfl | hmem
            · rw [hval]
              exact ⟨fun _ => hw, rfl⟩
            · exact hs _ hmem
  | close =>
    show WF (Close s).2
    unfold Close
    split
    · exact hs
    · exact hs

/-- Well-formedness holds along every history from a fresh storage. -/
theorem WF_runTrace (ops : List Op) : WF (runTrace Storage.new ops).1 := by
  have h : ∀ s : Storage, WF s → WF (runTrace s ops).1 := by
    induction ops with
    | nil => exact fun s hs => hs
    | cons op ops ih => exact fun s hs => ih _ (WF_step hs op)
  refine h _ ?_
  intro kv hkv
  simp [Storage.new] at hkv

/-! ## Claim theorems -/

/-- C1: the spec claims that WaitForValue on a key with no installed slot and
a given (non-none) old version returns an empty value and a none new-version
immediately, without installing a slot.  The code does the opposite: on a
fresh storage, WaitForValue with old version 1 installs a slot for the key,
attaches watcher 0 to it, and parks (blocks) instead of returning. -/
theorem waitForValue_absent_oldVersion_blocks :
    WaitForValue Storage.new "k" (some 1) =
      WaitOut.blocked 0 ⟨[("k", ⟨"", 0, [0], false⟩)], 0, false, 1⟩ ∧
    lookupV [("k", (⟨"", 0, [0], false⟩ : Value))] "k" =
      some ⟨"", 0, [0], false⟩ := by
  decide

/-- C2: the spec claims a successful delete detaches the attached watchers
and fires them with an empty value and version 0, so a parked WaitForValue
returns an empty value and a none version.  The code's Clear fires nothing:
after create, a wait parked on watcher 0, and a successful delete, the event
list is empty and watcher 0 is still attached to the (now absent) slot, so
the parked wait stays blocked. -/
theorem deleteValue_fires_no_watcher :
    CreateValue Storage.new "k" "1" =
      PubRes.ok (some 1) ⟨[("k", ⟨"1", 1, [], false⟩)], 1, false, 0⟩ [] ∧
    WaitForValue ⟨[("k", ⟨"1", 1, [], false⟩)], 1, false, 0⟩ "k" (some 1) =
      WaitOut.blocked 0 ⟨[("k", ⟨"1", 1, [0], false⟩)], 1, false, 1⟩ ∧
    DeleteValue ⟨[("k", ⟨"1", 1, [0], false⟩)], 1, false, 1⟩ "k" (some 1) =
      PubRes.ok true ⟨[("k", ⟨"", 0, [0], false⟩)], 1, false, 1⟩ [] ∧
    lookupV [("k", (⟨"", 0, [0], false⟩ : Value))] "k" =
      some ⟨"", 0, [0], false⟩ := by
  decide

/-- C3: round trip over one key on a fresh storage: CreateValue returns a
non-none version V and GetValue then returns the value under V; UpdateValue
under V returns a fresh non-none version different from V and GetValue
follows; DeleteValue under the new version returns true and GetValue then
returns an empty value with a none version. -/
theorem roundTrip_create_get_update_delete (k v v' : String) :
    ∃ V s1, CreateValue Storage.new k v = PubRes.ok (some V) s1 [] ∧
      GetValue s1 k = PubRes.ok (v, some V) s1 [] ∧
      ∃ V' s2, UpdateValue s1 k v' (some V) = PubRes.ok (some V') s2 [] ∧
        V' ≠ V ∧
        GetValue s2 k = PubRes.ok (v', some V') s2 [] ∧
        ∃ s3, DeleteValue s2 k (some V') = PubRes.ok true s3 [] ∧
          GetValue s3 k = PubRes.ok ("", none) s3 [] := by
  refine ⟨1, ⟨[(k, ⟨v, 1, [], false⟩)], 1, false, 0⟩, ?_, ?_, 2,
    ⟨[(k, ⟨v', 2, [], false⟩)], 2, false, 0⟩, ?_, by decide, ?_,
    ⟨[], 2, false, 0⟩, ?_, ?_⟩
  · simp [CreateValue, tryCreateValue, Storage.new, NewValue, Value.set,
      lookupV, setEntry, version2OpaqueVersion]
  · simp [GetValue, tryGetValue, lookupV, Value.Get, version2OpaqueVersion]
  · simp [UpdateValue, tryUpdateValue, opaqueVersion2Version, lookupV,
      Value.CheckAndSet, updateValueCallback, Value.set, setEntry,
      version2OpaqueVersion]
  · simp [GetValue, tryGetValue, lookupV, Value.Get, version2OpaqueVersion]
  · simp [DeleteValue, tryDeleteValue, opaqueVersion2Version, lookupV,
      Value.Clear, delEntry, version2OpaqueVersion]
  · simp [GetValue, tryGetValue, lookupV, version2OpaqueVersion]

/-- C4: along every history of operations on one storage instance, the
versions handed back by successful CreateValue, UpdateValue and
CreateOrUpdateValue calls are strictly increasing in completion order,
pairwise distinct, and none of them boxes to the none public version. -/
theorem returned_versions_distinct_increasing (ops : List Op) :
    List.Pairwise (fun a b => a < b) (runTrace Storage.new ops).2 ∧
    List.Pairwise (fun a b => a ≠ b) (runTrace Storage.new ops).2 ∧
    ∀ v ∈ (runTrace Storage.new ops).2, version2OpaqueVersion v ≠ none := by
  obtain ⟨hmono, hpw, hmem⟩ := runTrace_bound ops Storage.new
  refine ⟨hpw, hpw.imp (fun h => Nat.ne_of_lt h), ?_⟩
  intro v hv
  have h0 : 0 < v := (hmem v hv).1
  simp [version2OpaqueVersion, Nat.pos_iff_ne_zero.mp h0]

/-- Witness for C4 at a concrete history. -/
theorem returned_versions_distinct_increasing_witness :
    1 ∈ (runTrace Storage.new [Op.create "a" "x"]).2 ∧
    version2OpaqueVersion 1 ≠ none :=
  ⟨by decide,
    (returned_versions_distinct_increasing [Op.create "a" "x"]).2.2 1 (by decide)⟩

/-- C5: the first Close on a non-closed storage succeeds (no error) and marks
the storage closed; on a closed storage, Close fails with StorageClosed (the
true flag) and every public operation fails with StorageClosed, while every
step keeps the storage closed, so all later operations fail as well. -/
theorem close_idempotent_postClose_fails (s : Storage) (key vl : String)
    (old : Option Nat) (op : Op) :
    (s.isClosed1 = false →
      Close s = (false, ⟨s.values, s.version, true, s.watcherSeq⟩)) ∧
    (s.isClosed1 = true →
      Close s = (true, s) ∧
      GetValue s key = PubRes.closedErr ∧
      WaitForValue s key old = WaitOut.closedErr ∧
      CreateValue s key vl = PubRes.closedErr ∧
      UpdateValue s key vl old = PubRes.closedErr ∧
      CreateOrUpdateValue s key vl old = PubRes.closedErr ∧
      DeleteValue s key old = PubRes.closedErr ∧
      (step s op).1.isClosed1 = true) := by
  constructor
  · intro h
    simp [Close, h]
  · intro h
    refine ⟨by simp [Close, h], by simp [GetValue, tryGetValue, h],
      by simp [WaitForValue, tryWaitForValue, h],
      by simp [CreateValue, tryCreateValue, h],
      by simp [UpdateValue, tryUpdateValue, h],
      by simp [CreateOrUpdateValue, tryCreateOrUpdateValue, h],
      by simp [DeleteValue, tryDeleteValue, h], ?_⟩
    cases op with
    | get key2 =>
      show ((tryGetValue s key2).stateD s).isClosed1 = true
      rw [tryGetValue_stateD]
      exact h
    | wait key2 old2 =>
      show ((tryWaitForValue s key2 old2).stateD s).isClosed1 = true
      rw [(tryWaitForValue_fields s key2 old2).2]
      exact h
    | cancelWait key2 wid =>
      show (storageRemoveWatcher s key2 wid).isClosed1 = true
      rw [(storageRemoveWatcher_fields s key2 wid).2.1]
      exact h
    | create key2 vl2 =>
      show ((tryCreateValue s key2 vl2).stateD s).isClosed1 = true
      simp [tryCreateValue, h, TryRes.stateD]
    | update key2 vl2 old2 =>
      show ((tryUpdateValue s key2 vl2 old2).stateD s).isClosed1 = true
      simp [tryUpdateValue, h, TryRes.stateD]
    | createOrUpdate key2 vl2 old2 =>
      show ((tryCreateOrUpdateValue s key2 vl2 old2).stateD s).isClosed1 = true
      simp [tryCreateOrUpdateValue, h, TryRes.stateD]
    | delete key2 ver =>
      show ((tryDeleteValue s key2 ver).stateD s).isClosed1 = true
      simp [tryDeleteValue, h, TryRes.stateD]
    | close =>
      show (Close s).2.isClosed1 = true
      simp [Close, h]

/-- Witness for C5 at concrete storages. -/
theorem close_idempotent_postClose_fails_witness :
    Close Storage.new = (false, ⟨[], 0, true, 0⟩) ∧
    Close ⟨[], 0, true, 0⟩ = (true, ⟨[], 0, true, 0⟩) ∧
    GetValue ⟨[], 0, true, 0⟩ "k" = PubRes.closedErr :=
  ⟨(close_idempotent_postClose_fails Storage.new "k" "v" none Op.close).1 rfl,
    ((close_idempotent_postClose_fails ⟨[], 0, true, 0⟩ "k" "v" none Op.close).2
      rfl).1,
    (((close_idempotent_postClose_fails ⟨[], 0, true, 0⟩ "k" "v" none
      Op.close).2 rfl).2).1⟩

/-- C6: UpdateValue returns the none new-version when no value exists for
the key (no entry, or an absent entry) and when a given non-none old version
differs from the current version, leaving the state untouched in every such
case; when the value exists and the old version is none or equals the current
version, it writes the value under the freshly allocated version and returns
that (non-none) version. -/
theorem updateValue_semantics (s : Storage) (key vl : String) (ov : Nat)
    (value : Value) (hc : s.isClosed1 = false) :
    (lookupV s.values key = none →
      ∀ old, UpdateValue s key vl old = PubRes.ok none s []) ∧
    (lookupV s.values key = some value → value.isRemoved = false →
      ((value.version = 0 →
        ∀ old, UpdateValue s key vl old = PubRes.ok none s []) ∧
       (ov ≠ 0 → value.version ≠ ov →
        UpdateValue s key vl (some ov) = PubRes.ok none s []) ∧
       (value.version ≠ 0 →
        UpdateValue s key vl none =
          PubRes.ok (some (s.version + 1))
            ⟨setEntry s.values key ⟨vl, s.version + 1, [], false⟩,
              s.version + 1, s.isClosed1, s.watcherSeq⟩
            (value.watchers.map fun w => (w, ⟨vl, s.version + 1⟩)) ∧
        s.version + 1 ≠ 0) ∧
       (value.version ≠ 0 →
        UpdateValue s key vl (some value.version) =
          PubRes.ok (some (s.version + 1))
            ⟨setEntry s.values key ⟨vl, s.version + 1, [], false⟩,
              s.version + 1, s.isClosed1, s.watcherSeq⟩
            (value.watchers.map fun w => (w, ⟨vl, s.version + 1⟩))))) := by
  constructor
  · intro hl old
    simp [UpdateValue, tryUpdateValue, hc, hl, version2OpaqueVersion]
  · intro hl hrm
    refine ⟨?_, ?_, ?_, ?_⟩
    · intro h0 old
      simp [UpdateValue, tryUpdateValue, hc, hl, Value.CheckAndSet, hrm,
        updateValueCallback, h0, version2OpaqueVersion]
    · intro hov hne
      simp [UpdateValue, tryUpdateValue, hc, hl, Value.CheckAndSet, hrm,
        updateValueCallback, opaqueVersion2Version, hov, hne,
        version2OpaqueVersion]
    · intro h0
      constructor
      · simp [UpdateValue, tryUpdateValue, hc, hl, Value.CheckAndSet, hrm,
          updateValueCallback, opaqueVersion2Version, h0, Value.set,
          version2OpaqueVersion]
      · exact Nat.succ_ne_zero _
    · intro h0
      simp [UpdateValue, tryUpdateValue, hc, hl, Value.CheckAndSet, hrm,
        updateValueCallback, opaqueVersion2Version, h0, Value.set,
        version2OpaqueVersion]

/-- Witness for C6 at a concrete state. -/
theorem updateValue_semantics_witness :
    UpdateValue ⟨[("k", ⟨"a", 5, [], false⟩)], 5, false, 0⟩ "k" "b" (some 3) =
      PubRes.ok none ⟨[("k", ⟨"a", 5, [], false⟩)], 5, false, 0⟩ [] :=
  (((updateValue_semantics ⟨[("k", ⟨"a", 5, [], false⟩)], 5, false, 0⟩ "k" "b" 3
    ⟨"a", 5, [], false⟩ rfl).2 (by decide) rfl).2.1) (by decide) (by decide)

/-- C7: on a key whose slot exists but is absent (version 0), with a non-none
old version, CreateOrUpdateValue writes unconditionally under the
pre-allocated version and returns it (non-none, firing the attached
watchers with the new pair), whereas UpdateValue in the same state returns
the none new-version and changes nothing. -/
theorem createOrUpdate_absent_asymmetry (s : Storage) (key vl : String)
    (ov : Nat) (value : Value) (hc : s.isClosed1 = false)
    (hl : lookupV s.values key = some value)
    (hrm : value.isRemoved = false) (h0 : value.version = 0) (_hov : ov ≠ 0) :
    CreateOrUpdateValue s key vl (some ov) =
      PubRes.ok (some (s.version + 1))
        ⟨setEntry s.values key ⟨vl, s.version + 1, [], false⟩,
          s.version + 1, s.isClosed1, s.watcherSeq⟩
        (value.watchers.map fun w => (w, ⟨vl, s.version + 1⟩)) ∧
    s.version + 1 ≠ 0 ∧
    UpdateValue s key vl (some ov) = PubRes.ok none s [] := by
  refine ⟨?_, Nat.succ_ne_zero _, ?_⟩
  · simp [CreateOrUpdateValue, tryCreateOrUpdateValue, hc, hl, NewValue_succ,
      Value.CheckAndSet, hrm, createOrUpdateValueCallback, h0,
      opaqueVersion2Version, Value.set, version2OpaqueVersion]
  · simp [UpdateValue, tryUpdateValue, hc, hl, Value.CheckAndSet, hrm,
      updateValueCallback, h0, opaqueVersion2Version, version2OpaqueVersion]

/-- Witness for C7 at a concrete state. -/
theorem createOrUpdate_absent_asymmetry_witness :
    CreateOrUpdateValue ⟨[("k", ⟨"", 0, [7], false⟩)], 3, false, 8⟩ "k" "nv"
      (some 2) =
      PubRes.ok (some 4) ⟨[("k", ⟨"nv", 4, [], false⟩)], 4, false, 8⟩
        [(7, ⟨"nv", 4⟩)] ∧
    UpdateValue ⟨[("k", ⟨"", 0, [7], false⟩)], 3, false, 8⟩ "k" "nv" (some 2) =
      PubRes.ok none ⟨[("k", ⟨"", 0, [7], false⟩)], 3, false, 8⟩ [] :=
  ⟨(createOrUpdate_absent_asymmetry ⟨[("k", ⟨"", 0, [7], false⟩)], 3, false, 8⟩
      "k" "nv" 2 ⟨"", 0, [7], false⟩ rfl rfl rfl rfl (by decide)).1,
    (createOrUpdate_absent_asymmetry ⟨[("k", ⟨"", 0, [7], false⟩)], 3, false, 8⟩
      "k" "nv" 2 ⟨"", 0, [7], false⟩ rfl rfl rfl rfl (by decide)).2.2⟩

/-- C8: after every completed history of sequential operations from a fresh
storage, the map holds no entry whose version is 0 and whose watcher set is
empty: the operation that empties such an entry tombstones it and deletes it
in the same critical section. -/
theorem no_gc_eligible_entry (ops : List Op) :
    ∀ kv ∈ (runTrace Storage.new ops).1.values,
      kv.2.version = 0 → kv.2.watchers ≠ [] :=
  fun kv hkv => ((WF_runTrace ops) kv hkv).1

/-- Witness for C8 at a concrete history. -/
theorem no_gc_eligible_entry_witness :
    ("k", (⟨"", 0, [0], false⟩ : Value)) ∈
      (runTrace Storage.new [Op.wait "k" 0]).1.values ∧
    (⟨"", 0, [0], false⟩ : Value).watchers ≠ [] :=
  ⟨by decide,
    no_gc_eligible_entry [Op.wait "k" 0] ("k", ⟨"", 0, [0], false⟩)
      (by decide) (by decide)⟩

/-- Every write requested by the callback installed by tryCreateValue
carries a non-zero version. -/
theorem createValueCallback_nonzero (vl : String) (n cur : Nat) :
    ∀ p, createValueCallback vl (n + 1) cur = some p → p.2 ≠ 0 := by
  intro p hp
  unfold createValueCallback at hp
  split at hp
  · simp at hp
  · obtain rfl := Option.some.inj hp
    exact Nat.succ_ne_zero _

/-- Every write requested by the callback installed by tryUpdateValue
carries a non-zero version. -/
theorem updateValueCallback_nonzero (vl : String) (old n cur : Nat) :
    ∀ p, updateValueCallback vl old (n + 1) cur = some p → p.2 ≠ 0 := by
  intro p hp
  unfold updateValueCallback at hp
  split at hp
  · simp at hp
  · split at hp
    · simp at hp
    · obtain rfl := Option.some.inj hp
      exact Nat.succ_ne_zero _

/-- Every write requested by the callback installed by
tryCreateOrUpdateValue carries a non-zero version. -/
theorem createOrUpdateValueCallback_nonzero (vl : String) (old n cur : Nat) :
    ∀ p, createOrUpdateValueCallback vl old (n + 1) (n + 1 + 1) cur = some p →
      p.2 ≠ 0 := by
  intro p hp
  unfold createOrUpdateValueCallback at hp
  split at hp
  · obtain rfl := Option.some.inj hp
    exact Nat.succ_ne_zero _
  · split at hp
    · simp at hp
    · obtain rfl := Option.some.inj hp
      exact Nat.succ_ne_zero _

/-- A CheckAndSet whose callback only requests non-zero versions never
reaches the zero-version panic in Value.set. -/
theorem checkAndSet_nonzero_safe {val : Value} {cb : Nat → Option (String × Nat)}
    (hcb : ∀ p, cb val.version = some p → p.2 ≠ 0) :
    val.CheckAndSet cb ≠ Except.ok CASRes.panicked := by
  unfold Value.CheckAndSet
  split
  · simp
  · rcases hcb2 : cb val.version with _ | ⟨vv, ver⟩
    · simp
    · have hver : ver ≠ 0 := hcb (vv, ver) hcb2
      simp [Value.set, hver]

/-- No attempt of tryCreateValue (unbounded-counter model) reaches the
zero-version panic in Value.set. -/
theorem tryCreateValue_safe (s : Storage) (key vl : String) :
    tryCreateValue s key vl ≠ TryRes.panicked := by
  unfold tryCreateValue
  split
  · simp
  · dsimp only
    rw [NewValue_succ]
    dsimp only
    split
    · simp
    · rename_i value hl
      rcases hcas : value.CheckAndSet (createValueCallback vl (s.version + 1))
        with e | res
      · simp
      · rcases res with val1 | ⟨ val1, evs⟩ | _
        · simp
        · simp
        · exact absurd hcas
            (checkAndSet_nonzero_safe
              (createValueCallback_nonzero vl s.version value.version))

/-- No attempt of tryUpdateValue (unbounded-counter model) reaches the
zero-version panic in Value.set. -/
theorem tryUpdateValue_safe (s : Storage) (key vl : String) (old : Nat) :
    tryUpdateValue s key vl old ≠ TryRes.panicked := by
  unfold tryUpdateValue
  split
  · simp
  · split
    · simp
    · rename_i value hl
      rcases hcas : value.CheckAndSet
        (updateValueCallback vl old (s.version + 1)) with e | res
      · simp
      · rcases res with val1 | ⟨ val1, evs⟩ | _
        · simp
        · simp
        · exact absurd hcas
            (checkAndSet_nonzero_safe
              (updateValueCallback_nonzero vl old s.version value.version))

/-- No attempt of tryCreateOrUpdateValue (unbounded-counter model) reaches
the zero-version panic in Value.set. -/
theorem tryCreateOrUpdateValue_safe (s : Storage) (key vl : String)
    (old : Nat) : tryCreateOrUpdateValue s key vl old ≠ TryRes.panicked := by
  unfold tryCreateOrUpdateValue
  split
  · simp
  · dsimp only
    rw [NewValue_succ]
    dsimp only
    split
    · simp
    · rename_i value hl
      rcases hcas : value.CheckAndSet
        (createOrUpdateValueCallback vl old (s.version + 1) (s.version + 1 + 1))
        with e | res
      · simp
      · rcases res with val1 | ⟨ val1, evs⟩ | _
        · simp
        · dsimp only
          split
          · simp
          · simp
        · exact absurd hcas
            (checkAndSet_nonzero_safe
              (createOrUpdateValueCallback_nonzero vl old s.version
                value.version))

/-- Below 2^64 - 1 the wrapping allocation agrees with the unbounded one, so
the wrap variant of tryCreateValue coincides with tryCreateValue. -/
theorem tryCreateValueWrap_eq (s : Storage) (key vl : String)
    (h1 : s.version + 1 < 2 ^ 64) :
    tryCreateValueWrap s key vl = tryCreateValue s key vl := by
  simp only [tryCreateValueWrap, tryCreateValue, nextVersion,
    Nat.mod_eq_of_lt h1]

/-- Below 2^64 - 1 the wrap variant of tryUpdateValue coincides with
tryUpdateValue. -/
theorem tryUpdateValueWrap_eq (s : Storage) (key vl : String) (old : Nat)
    (h1 : s.version + 1 < 2 ^ 64) :
    tryUpdateValueWrap s key vl old = tryUpdateValue s key vl old := by
  simp only [tryUpdateValueWrap, tryUpdateValue, nextVersion,
    Nat.mod_eq_of_lt h1]

/-- Below 2^64 - 2 the wrap variant of tryCreateOrUpdateValue coincides with
tryCreateOrUpdateValue. -/
theorem tryCreateOrUpdateValueWrap_eq (s : Storage) (key vl : String)
    (old : Nat) (h1 : s.version + 1 < 2 ^ 64)
    (h2 : s.version + 1 + 1 < 2 ^ 64) :
    tryCreateOrUpdateValueWrap s key vl old =
      tryCreateOrUpdateValue s key vl old := by
  simp only [tryCreateOrUpdateValueWrap, tryCreateOrUpdateValue, nextVersion,
    Nat.mod_eq_of_lt h1, Nat.mod_eq_of_lt h2]

/-- Counterexample to C9 as stated: at the 2^64-th allocation the wrapping
counter of `atomic.AddUint64` returns 0, the update callback hands the write
(value, 0, do_it = true) to Value.set, and tryCreateValue reaches the
zero-version panic — the panic branch is NOT unreachable over all storage
states. -/
theorem versionCounter_wrap_reaches_panic :
    nextVersion (2 ^ 64 - 1) = 0 ∧
    updateValueCallback "v" 0 (nextVersion (2 ^ 64 - 1)) 5 = some ("v", 0) ∧
    tryCreateValueWrap ⟨ [], 2 ^ 64 - 1, false, 0⟩ "k" "v" =
      TryRes.panicked ∧
    tryUpdateValueWrap ⟨ [("k", ⟨ "a", 5, [], false⟩ )], 2 ^ 64 - 1, false, 0⟩
      "k" "v" 0 = TryRes.panicked := by
  decide

/-- C9 (amended): as long as the version counter has not wrapped (strictly
fewer than 2^64 allocations, so the next one or two allocated versions are
non-zero), every CheckAndSet callback installed by tryCreateValue,
tryUpdateValue and tryCreateOrUpdateValue hands a non-zero version to every
write it requests, and no storage operation reaches the zero-version panic in
Value.set. -/
theorem callbacks_nonzero_before_wrap (s : Storage) (key vl : String)
    (old cur : Nat) (h1 : s.version + 1 < 2 ^ 64)
    (h2 : s.version + 1 + 1 < 2 ^ 64) :
    (∀ p, createValueCallback vl (nextVersion s.version) cur = some p →
      p.2 ≠ 0) ∧
    (∀ p, updateValueCallback vl old (nextVersion s.version) cur = some p →
      p.2 ≠ 0) ∧
    (∀ p, createOrUpdateValueCallback vl old (nextVersion s.version)
      (nextVersion (nextVersion s.version)) cur = some p → p.2 ≠ 0) ∧
    tryCreateValueWrap s key vl ≠ TryRes.panicked ∧
    tryUpdateValueWrap s key vl old ≠ TryRes.panicked ∧
    tryCreateOrUpdateValueWrap s key vl old ≠ TryRes.panicked := by
  have hn1 : nextVersion s.version = s.version + 1 := Nat.mod_eq_of_lt h1
  have hn2 : nextVersion (s.version + 1) = s.version + 1 + 1 :=
    Nat.mod_eq_of_lt h2
  rw [hn1, hn2, tryCreateValueWrap_eq s key vl h1,
    tryUpdateValueWrap_eq s key vl old h1,
    tryCreateOrUpdateValueWrap_eq s key vl old h1 h2]
  exact ⟨ createValueCallback_nonzero vl s.version cur,
    updateValueCallback_nonzero vl old s.version cur,
    createOrUpdateValueCallback_nonzero vl old s.version cur,
    tryCreateValue_safe s key vl,
    tryUpdateValue_safe s key vl old,
    tryCreateOrUpdateValue_safe s key vl old⟩

/-- Witness for the amended C9 at concrete inputs. -/
theorem callbacks_nonzero_before_wrap_witness :
    Storage.new.version + 1 < 2 ^ 64 ∧
    createValueCallback "v" (nextVersion Storage.new.version) 0 =
      some ("v", 1) ∧
    ("v", 1).2 ≠ 0 ∧
    tryCreateValueWrap Storage.new "k" "v" ≠ TryRes.panicked :=
  ⟨ by decide, by decide,
    (callbacks_nonzero_before_wrap Storage.new "k" "v" 0 0 (by decide)
      (by decide)).1 ("v", 1) (by decide),
    (callbacks_nonzero_before_wrap Storage.new "k" "v" 0 0 (by decide)
      (by decide)).2.2.2.1⟩

/-- C10: the version boundary is a faithful embedding: version2OpaqueVersion
maps internal 0 to none and boxes every other version as itself,
opaqueVersion2Version is its inverse (none to 0, and a left inverse on every
non-zero internal version), and no boxed version ever carries the internal
sentinel 0. -/
theorem version_boundary_embedding (v : Nat) :
    version2OpaqueVersion 0 = none ∧
    opaqueVersion2Version none = 0 ∧
    (v ≠ 0 → version2OpaqueVersion v = some v) ∧
    (v ≠ 0 → opaqueVersion2Version (version2OpaqueVersion v) = v) ∧
    version2OpaqueVersion v ≠ some 0 := by
  refine ⟨rfl, rfl, ?_, ?_, ?_⟩
  · intro h
    simp [version2OpaqueVersion, h]
  · intro h
    simp [version2OpaqueVersion, opaqueVersion2Version, h]
  · by_cases h : v = 0
    · simp [version2OpaqueVersion, h]
    · simp [version2OpaqueVersion, h]

/-- Witness for C10 at a concrete version. -/
theorem version_boundary_embedding_witness :
    version2OpaqueVersion 7 = some 7 ∧
    opaqueVersion2Version (version2OpaqueVersion 7) = 7 :=
  ⟨(version_boundary_embedding 7).2.2.1 (by decide),
    (version_boundary_embedding 7).2.2.2.1 (by decide)⟩
